import Mathlib

/-!
Shallow embedding of `src/analysis.py` (HIMSS 2025 exhibitor dashboard).

The embedding covers the data pipeline the claims are about:
* `process_one` / `process_data`  — the Normalizer (`process_data`, lines 22-51);
  the per-record website extraction can raise a `KeyError` in the source
  (`contact['url']` on a website-typed contact without a `url` key), so it is
  embedded in `Except Unit`.
* `create_visualizations` — the Aggregator (lines 54-120).  Column access on a
  pandas DataFrame built from an empty record list raises `KeyError` (an empty
  DataFrame has no columns), so the function is embedded in `Except Unit`; for a
  nonempty record list every column exists and the computation is total.
* `display_category_click` — the drill-down filter of
  `display_category_click_data` (lines 330-366), plus the company-name-keyed
  selection store (a Python dict comprehension, modelled by a reversed
  association list so that later bindings shadow earlier ones).
* `download_selected_data` — the export callbacks
  `download_selected_category_data` / `download_selected_pavilion_data`
  (lines 531-604), which are textually identical up to the store they read.
-/

/-- One entry of `contact_details`: an arbitrary mapping; only the keys `type`
and `url` are ever read, each possibly absent. -/
structure Contact where
  type : Option String
  url : Option String
deriving DecidableEq, Repr, Inhabited

/-- A raw exhibitor record: an arbitrary mapping, each key possibly absent
(`exhibitor.get(...)` in the source). -/
structure ExhibitorRaw where
  company_name : Option String
  booth_location : Option String
  pavilion : Option String
  categories : Option (List String)
  description : Option String
  description_ko : Option String
  social_media : Option (List String)
  contact_details : Option (List Contact)
deriving DecidableEq, Repr, Inhabited

/-- The flat record built by `process_data` for each exhibitor (lines 31-46). -/
structure Item where
  company_name : String
  booth_location : String
  pavilion : String
  categories_count : Nat
  has_description : Nat
  social_media_count : Nat
  description : String
  description_ko : String
  social_media : List String
  contact_details : List Contact
  website : String
  categories : List String
deriving DecidableEq, Repr, Inhabited

/-- Python's `str.lower()` as used on contact types (character-wise
lowercasing; spelled out over the character list so it reduces in the
kernel). -/
def strToLower (s : String) : String := ⟨s.data.map Char.toLower⟩

/-- Lines 28-29: `next((contact['url'] for contact in exhibitor.get('contact_details', [])
if contact.get('type', '').lower() == 'website'), '')`.  The generator evaluates
`contact['url']` on the first contact whose `type` lowercases to `"website"`;
if that contact has no `url` key this raises `KeyError` (embedded as `.error ()`).
If no contact matches, the `next` default `''` is returned. -/
def findWebsiteUrl : List Contact → Except Unit String
  | [] => .ok ""
  | c :: cs =>
    if strToLower (c.type.getD "") = "website" then
      match c.url with
      | some u => .ok u
      | none => .error ()
    else findWebsiteUrl cs

/-- The loop body of `process_data` (lines 26-49) for one exhibitor. -/
def process_one (r : ExhibitorRaw) : Except Unit Item := do
  let website ← findWebsiteUrl (r.contact_details.getD [])
  .ok {
    company_name := r.company_name.getD "Unknown"
    booth_location := r.booth_location.getD "Unknown"
    pavilion := r.pavilion.getD "None"
    categories_count := (r.categories.getD []).length
    has_description := if (r.description_ko.getD "") = "" then 0 else 1
    social_media_count := (r.social_media.getD []).length
    description := r.description.getD ""
    description_ko := r.description_ko.getD ""
    social_media := r.social_media.getD []
    contact_details := r.contact_details.getD []
    website := website
    categories := r.categories.getD []
  }

/-- `process_data` (lines 22-51): the Normalizer applied to the whole array. -/
def process_data (l : List ExhibitorRaw) : Except Unit (List Item) :=
  l.mapM process_one

/-- Distinct values of a list in first-occurrence order (the key order of a
Python `Counter` / the groups of `pandas.value_counts`), accumulator-passing so
it reduces in the kernel. -/
def dedupFirstAux [DecidableEq α] (seen : List α) : List α → List α
  | [] => []
  | x :: xs => if x ∈ seen then dedupFirstAux seen xs else x :: dedupFirstAux (x :: seen) xs

/-- Distinct values of a list in first-occurrence order. -/
def dedupFirst [DecidableEq α] (l : List α) : List α :=
  dedupFirstAux [] l

/-- Descending-by-count order on `(value, count)` pairs, the order used by
`Counter.most_common` and `value_counts` / `sort_values(ascending=False)`. -/
def countDescRel {α : Type} (a b : α × Nat) : Prop := b.2 ≤ a.2

instance {α : Type} : DecidableRel (@countDescRel α) :=
  fun a b => Nat.decLe b.2 a.2

instance {α : Type} : IsTotal (α × Nat) countDescRel :=
  ⟨fun a b => Nat.le_total b.2 a.2⟩

instance {α : Type} : IsTrans (α × Nat) countDescRel :=
  ⟨fun _ _ _ h1 h2 => Nat.le_trans h2 h1⟩

/-- `pandas.Series.value_counts` / `Counter.most_common`: one `(value, count)`
pair per distinct value, sorted by descending count (stable on
first-occurrence order among equal counts). -/
def value_counts [DecidableEq α] (l : List α) : List (α × Nat) :=
  List.insertionSort countDescRel ((dedupFirst l).map fun v => (v, l.count v))

/-- Lines 59-61: flatten every record's category list. -/
def allCats (rows : List Item) : List String :=
  (rows.map fun e => e.categories).flatten

/-- Lines 64-67: `Counter(all_categories).most_common(30)`. -/
def top30pairs (rows : List Item) : List (String × Nat) :=
  (value_counts (allCats rows)).take 30

/-- Line 68: `top_30_category_names = set(top_30_categories.keys())`. -/
def top30Names (rows : List Item) : List String :=
  (top30pairs rows).map fun p => p.1

/-- Lines 70-76: count exhibitors whose category set intersects none of the
top-30 names. -/
def othersCount (rows : List Item) : Nat :=
  rows.countP fun e => e.categories.all fun c => !((top30Names rows).contains c)

/-- Lines 88-89: `top_30_categories['Artificial Intelligence']` when the key is
present (`none` otherwise). -/
def aiCountOf (rows : List Item) : Option Nat :=
  ((top30pairs rows).find? fun p => p.1 = "Artificial Intelligence").map fun p => p.2

/-- Lines 78-91: the category table — top-30 pairs plus a final synthetic
`("Others", others_count)` row, whose displayed count is then overwritten with
the `"Artificial Intelligence"` count when that category is in the top 30
(the `df.loc[category == 'Others', 'count'] = ai_count` update). -/
def topCategoriesTable (rows : List Item) : List (String × Nat) :=
  let base := top30pairs rows ++ [("Others", othersCount rows)]
  match aiCountOf rows with
  | some ai => base.map fun p => if p.1 = "Others" then (p.1, ai) else p
  | none => base

/-- Lines 96-100: pavilion `value_counts`, rows with pavilion `"None"` removed,
re-sorted by descending count, first 15 kept. -/
def pavilionTable (rows : List Item) : List (String × Nat) :=
  (List.insertionSort countDescRel
    ((value_counts (rows.map fun e => e.pavilion)).filter fun p => p.1 != "None")).take 15

/-- Line 105: the `{1: 'Yes', 0: 'No'}` mapping (any other value becomes a
pandas missing value, rendered here as `"NaN"`; `has_description` only ever
holds 0 or 1 in the pipeline). -/
def hasDescLabel (n : Nat) : String :=
  if n = 1 then "Yes" else if n = 0 then "No" else "NaN"

/-- Lines 102-105: `value_counts` of `has_description`, values renamed. -/
def descriptionTable (rows : List Item) : List (String × Nat) :=
  (value_counts (rows.map fun e => e.has_description)).map fun p => (hasDescLabel p.1, p.2)

/-- Ascending order on the distinct social-media-count value (line 110). -/
def ascFstRel (a b : Nat × Nat) : Prop := a.1 ≤ b.1

instance : DecidableRel ascFstRel :=
  fun a b => Nat.decLe a.1 b.1

/-- Lines 107-110: `value_counts` of `social_media_count`, sorted ascending by
the count value. -/
def socialTable (rows : List Item) : List (Nat × Nat) :=
  List.insertionSort ascFstRel (value_counts (rows.map fun e => e.social_media_count))

/-- The dictionary returned by `create_visualizations` (lines 112-120). -/
structure VizData where
  df : List Item
  top_categories : List (String × Nat)
  top_30_category_names : List String
  pavilion_counts : List (String × Nat)
  description_counts : List (String × Nat)
  social_media_dist : List (Nat × Nat)
  others_real_count : Nat
deriving DecidableEq, Repr, Inhabited

/-- `df[col]` on a DataFrame built from a list of fixed-key mappings: the
column exists iff the list is nonempty (an empty `pd.DataFrame([])` has no
columns, so column access raises `KeyError`). -/
def dfColumn (rows : List Item) (f : Item → α) : Except Unit (List α) :=
  match rows with
  | [] => .error ()
  | _ => .ok (rows.map f)

/-- The record assembled by `create_visualizations` for a record list whose
DataFrame columns all exist.  Line 94 stores the fixed constant 507 as
`others_real_count` (the computed `others_count` is assigned to the unused
local `real_others_count` on line 87 and discarded). -/
def vizRecord (rows : List Item) : VizData where
  df := rows
  top_categories := topCategoriesTable rows
  top_30_category_names := top30Names rows
  pavilion_counts := pavilionTable rows
  description_counts := descriptionTable rows
  social_media_dist := socialTable rows
  others_real_count := 507

/-- `create_visualizations` (lines 54-120): the Aggregator.  Each derived table
reads a DataFrame column (`df['categories']` line 60, `df['pavilion']` line 97,
`df['has_description']` line 103, `df['social_media_count']` line 108), which
raises on an empty DataFrame. -/
def create_visualizations (rows : List Item) : Except Unit VizData := do
  let _ ← dfColumn rows fun e => e.categories
  let _ ← dfColumn rows fun e => e.pavilion
  let _ ← dfColumn rows fun e => e.has_description
  let _ ← dfColumn rows fun e => e.social_media_count
  .ok (vizRecord rows)

/-- `Except.isOk` as a plain Boolean. -/
def isOkB : Except Unit α → Bool
  | .ok _ => true
  | .error _ => false

/-- `Except.toOption`. -/
def okValue? : Except Unit α → Option α
  | .ok a => some a
  | .error _ => none

/-- Ascending case-sensitive (code-point) order on `company_name`, the key of
`sorted(filtered_exhibitors, key=lambda x: x['company_name'])` (line 363). -/
def byNameRel (a b : Item) : Prop := a.company_name ≤ b.company_name

instance : DecidableRel byNameRel :=
  fun a b => inferInstanceAs (Decidable (a.company_name ≤ b.company_name))

instance : IsTotal Item byNameRel :=
  ⟨fun a b => le_total a.company_name b.company_name⟩

instance : IsTrans Item byNameRel :=
  ⟨fun _ _ _ h1 h2 => le_trans h1 h2⟩

/-- Lines 341-363 of `display_category_click_data`: filter the records by the
clicked category — the `"Others"` branch keeps records whose category set
intersects none of the top-30 names, the regular branch keeps records whose
category list contains the clicked name — then sort by `company_name`. -/
def display_category_click (v : VizData) (selected_category : String) : List Item :=
  let filtered :=
    if selected_category = "Others" then
      v.df.filter fun e => e.categories.all fun c => !(v.top_30_category_names.contains c)
    else
      v.df.filter fun e => e.categories.contains selected_category
  List.insertionSort byNameRel filtered

/-- Lines 448-457 of `display_pavilion_click_data`: filter by exact pavilion
equality, then sort by `company_name`. -/
def display_pavilion_click (v : VizData) (selected_pavilion : String) : List Item :=
  List.insertionSort byNameRel (v.df.filter fun e => e.pavilion == selected_pavilion)

/-- The Python dict comprehension
`{exhibitor['company_name']: exhibitor for exhibitor in filtered_exhibitors}`
(lines 366 and 460), modelled for lookup as a reversed association list: later
bindings shadow earlier ones, so a key maps to the last item bearing it. -/
def dictOfList (l : List Item) : List (String × Item) :=
  (l.map fun e => (e.company_name, e)).reverse

/-- Dictionary lookup (`company_name in app.selected_..._exhibitors` plus the
indexing that follows it). -/
def dictGet? (d : List (String × Item)) (k : String) : Option Item :=
  (d.find? fun p => p.1 = k).map fun p => p.2

/-- The store written by a category drill-down:
`app.selected_category_exhibitors` after `display_category_click_data` ran with
the given selection. -/
def selected_category_exhibitors (v : VizData) (selected_category : String) :
    List (String × Item) :=
  dictOfList (display_category_click v selected_category)

/-- The export table: a header row plus data rows. -/
structure ExportTable where
  headers : List String
  rows : List (List String)
deriving DecidableEq, Repr, Inhabited

/-- Line 560/601: the renamed column headers of the export. -/
def exportHeaders : List String :=
  ["회사명", "부스 위치", "파빌리온", "영문 설명", "한글 설명", "웹페이지"]

/-- Line 558/599: the six columns kept for one exported record. -/
def exportRow (e : Item) : List String :=
  [e.company_name, e.booth_location, e.pavilion, e.description, e.description_ko, e.website]

/-- Lines 536-539: collect the checked company names — `values[0]` of every
checklist whose value list is nonempty, in checklist order. -/
def selectedCompanies (checkbox_values : List (List String)) : List String :=
  checkbox_values.filterMap List.head?

/-- `download_selected_category_data` (lines 531-563) and
`download_selected_pavilion_data` (lines 572-604), which are identical up to
the store they read: bail out on `n_clicks` falsy, on no checked names, and on
no checked name present in the store; otherwise build the six-column table. -/
def download_selected_data (n_clicks : Nat) (checkbox_values : List (List String))
    (store : List (String × Item)) : Option ExportTable :=
  if n_clicks = 0 then none
  else
    let selected_companies := selectedCompanies checkbox_values
    if selected_companies.isEmpty then none
    else
      let selected_data := selected_companies.filterMap fun n => dictGet? store n
      if selected_data.isEmpty then none
      else some { headers := exportHeaders, rows := selected_data.map exportRow }

/-- The export operation as seen from the UI contract: the current display
language (`"ko"`/`"en"` held in the language store) alongside the callback
inputs.  The source callbacks `download_selected_category_data` /
`download_selected_pavilion_data` subscribe only to the button click count and
the checkbox states (lines 524-530 and 565-571) — the language store is not
among their inputs — so the result is the same for every language value. -/
def download_selected_data_at (_language : String) (n_clicks : Nat)
    (checkbox_values : List (List String)) (store : List (String × Item)) :
    Option ExportTable :=
  download_selected_data n_clicks checkbox_values store

/-- A convenient concrete normalized record for witnesses and counterexamples. -/
def mkItem (name booth pav : String) (cats : List String) (dko : String) : Item where
  company_name := name
  booth_location := booth
  pavilion := pav
  categories_count := cats.length
  has_description := if dko = "" then 0 else 1
  social_media_count := 0
  description := ""
  description_ko := dko
  social_media := []
  contact_details := []
  website := ""
  categories := cats

/-- A raw record whose only content is a `website`-typed contact without a
`url` key — the shape on which the source's `contact['url']` raises. -/
def rawBadContact : ExhibitorRaw where
  company_name := none
  booth_location := none
  pavilion := none
  categories := none
  description := none
  description_ko := none
  social_media := none
  contact_details := some [{ type := some "website", url := none }]

/-- A raw record with every key absent. -/
def rawAllNone : ExhibitorRaw where
  company_name := none
  booth_location := none
  pavilion := none
  categories := none
  description := none
  description_ko := none
  social_media := none
  contact_details := none

/-- One-record dataset whose single category is `"Artificial Intelligence"`:
the top-30 set is `{"Artificial Intelligence"}` and no exhibitor falls outside
it, so the true "Others" count is 0. -/
def rowsAI : List Item :=
  [mkItem "A" "B1" "None" ["Artificial Intelligence"] ""]

/-- Two-pavilion dataset with one `"None"` sentinel, used as a witness input. -/
def rowsPav : List Item :=
  [mkItem "A" "B1" "P1" [] "", mkItem "B" "B2" "P1" [] "x", mkItem "C" "B3" "None" [] ""]

/-- One record with a nonempty Korean description: its description split has a
single `("Yes", 1)` entry. -/
def rowsYesOnly : List Item :=
  [mkItem "A" "B1" "None" [] "desc"]

/-- One record of each description class. -/
def rowsYesNo : List Item :=
  [mkItem "A" "B1" "None" [] "x", mkItem "B" "B2" "None" [] ""]

/-- A small `VizData` used to exercise the drill-down filter directly. -/
def vizSmall : VizData where
  df := [mkItem "B" "B2" "P" ["X"] "", mkItem "A" "B1" "Q" ["X", "Y"] ""]
  top_categories := []
  top_30_category_names := []
  pavilion_counts := []
  description_counts := []
  social_media_dist := []
  others_real_count := 0

/-- A `VizData` whose record list holds two records sharing a company name. -/
def vizDup : VizData where
  df := [mkItem "A" "B1" "P" ["X"] "", mkItem "A" "B2" "Q" ["X"] ""]
  top_categories := []
  top_30_category_names := []
  pavilion_counts := []
  description_counts := []
  social_media_dist := []
  others_real_count := 0

/-- A one-record export store. -/
def storeOne : List (String × Item) :=
  dictOfList [mkItem "A" "B1" "P" [] ""]

theorem mem_dedupFirstAux [DecidableEq α] (seen l : List α) (a : α) :
    a ∈ dedupFirstAux seen l ↔ a ∈ l ∧ a ∉ seen := by
  induction l generalizing seen with
  | nil => simp [dedupFirstAux]
  | cons x xs ih =>
    by_cases hx : x ∈ seen
    · simp only [dedupFirstAux, if_pos hx, ih, List.mem_cons]
      constructor
      · rintro ⟨h1, h2⟩; exact ⟨Or.inr h1, h2⟩
      · rintro ⟨h1 | h1, h2⟩
        · exact absurd (h1 ▸ hx) h2
        · exact ⟨h1, h2⟩
    · simp only [dedupFirstAux, if_neg hx, List.mem_cons, ih]
      constructor
      · rintro (rfl | ⟨h1, h2⟩)
        · exact ⟨Or.inl rfl, hx⟩
        · exact ⟨Or.inr h1, fun hs => h2 (Or.inr hs)⟩
      · rintro ⟨rfl | h1, h2⟩
        · exact Or.inl rfl
        · by_cases hax : a = x
          · exact Or.inl hax
          · exact Or.inr ⟨h1, fun hs => hs.elim hax h2⟩

theorem mem_dedupFirst [DecidableEq α] (l : List α) (a : α) :
    a ∈ dedupFirst l ↔ a ∈ l := by
  simp [dedupFirst, mem_dedupFirstAux]

theorem nodup_dedupFirstAux [DecidableEq α] (seen l : List α) :
    (dedupFirstAux seen l).Nodup := by
  induction l generalizing seen with
  | nil => simp [dedupFirstAux]
  | cons x xs ih =>
    by_cases hx : x ∈ seen
    · simpa [dedupFirstAux, if_pos hx] using ih seen
    · simp only [dedupFirstAux, if_neg hx]
      refine List.nodup_cons.mpr ⟨?_, ih (x :: seen)⟩
      intro hmem
      exact ((mem_dedupFirstAux (x :: seen) xs x).mp hmem).2 (List.mem_cons_self x seen)

theorem nodup_dedupFirst [DecidableEq α] (l : List α) : (dedupFirst l).Nodup :=
  nodup_dedupFirstAux [] l

theorem dedupFirst_perm_dedup [DecidableEq α] (l : List α) :
    List.Perm (dedupFirst l) l.dedup := by
  rw [List.perm_ext_iff_of_nodup (nodup_dedupFirst l) (List.nodup_dedup l)]
  intro a
  rw [mem_dedupFirst, List.mem_dedup]

theorem value_counts_perm [DecidableEq α] (l : List α) :
    List.Perm (value_counts l) ((dedupFirst l).map fun v => (v, l.count v)) :=
  List.perm_insertionSort _ _

theorem mem_value_counts [DecidableEq α] (l : List α) (p : α × Nat) :
    p ∈ value_counts l ↔ p.1 ∈ l ∧ p.2 = l.count p.1 := by
  rw [(value_counts_perm l).mem_iff, List.mem_map]
  constructor
  · rintro ⟨v, hv, rfl⟩
    exact ⟨(mem_dedupFirst l v).mp hv, rfl⟩
  · rintro ⟨h1, h2⟩
    exact ⟨p.1, (mem_dedupFirst l p.1).mpr h1, by rw [← h2]⟩

theorem nodup_fst_value_counts [DecidableEq α] (l : List α) :
    ((value_counts l).map fun p => p.1).Nodup := by
  have h := ((value_counts_perm l).map fun p => p.1).nodup_iff
  rw [h, List.map_map]
  have he : List.map ((fun p : α × Nat => p.1) ∘ fun v => (v, l.count v)) (dedupFirst l)
      = dedupFirst l := List.map_id' _
  rw [he]
  exact nodup_dedupFirst l

theorem sum_snd_value_counts [DecidableEq α] (l : List α) :
    ((value_counts l).map fun p => p.2).sum = l.length := by
  rw [((value_counts_perm l).map fun p => p.2).sum_eq, List.map_map]
  have h2 := ((dedupFirst_perm_dedup l).map fun v => l.count v).sum_eq
  simpa [Function.comp] using h2.trans (by simpa using List.sum_map_count_dedup_eq_length l)

theorem sorted_value_counts [DecidableEq α] (l : List α) :
    List.Sorted countDescRel (value_counts l) :=
  List.sorted_insertionSort _ _

theorem count_map_eq_countP [DecidableEq β] (f : α → β) (l : List α) (x : β) :
    (l.map f).count x = l.countP fun e => f e = x := by
  rw [List.count, List.countP_map]
  apply List.countP_congr
  intro a _
  simp [Function.comp, beq_iff_eq]

theorem create_visualizations_nil : create_visualizations [] = .error () := rfl

theorem create_visualizations_cons (a : Item) (l : List Item) :
    create_visualizations (a :: l) = .ok (vizRecord (a :: l)) := rfl

theorem create_visualizations_eq_ok (rows : List Item) (v : VizData)
    (h : create_visualizations rows = .ok v) : v = vizRecord rows := by
  cases rows with
  | nil => rw [create_visualizations_nil] at h; exact Except.noConfusion h
  | cons a l => rw [create_visualizations_cons] at h; exact (Except.ok.inj h).symm

theorem create_visualizations_ne_nil (rows : List Item) (hne : rows ≠ []) :
    isOkB (create_visualizations rows) = true := by
  cases rows with
  | nil => exact absurd rfl hne
  | cons a l => rw [create_visualizations_cons]; rfl

theorem findWebsiteUrl_isOk (l : List Contact)
    (h : ∀ c ∈ l, strToLower (c.type.getD "") = "website" → c.url ≠ none) :
    ∃ u, findWebsiteUrl l = .ok u := by
  induction l with
  | nil => exact ⟨"", rfl⟩
  | cons c cs ih =>
    by_cases hc : strToLower (c.type.getD "") = "website"
    · have hurl := h c (List.mem_cons_self c cs) hc
      cases hu : c.url with
      | none => exact absurd hu hurl
      | some u => exact ⟨u, by simp [findWebsiteUrl, if_pos hc, hu]⟩
    · simpa [findWebsiteUrl, if_neg hc] using ih fun d hd => h d (List.mem_cons_of_mem c hd)

theorem process_one_eq_ok (r : ExhibitorRaw) (u : String)
    (hu : findWebsiteUrl (r.contact_details.getD []) = .ok u) :
    process_one r = .ok {
      company_name := r.company_name.getD "Unknown"
      booth_location := r.booth_location.getD "Unknown"
      pavilion := r.pavilion.getD "None"
      categories_count := (r.categories.getD []).length
      has_description := if (r.description_ko.getD "") = "" then 0 else 1
      social_media_count := (r.social_media.getD []).length
      description := r.description.getD ""
      description_ko := r.description_ko.getD ""
      social_media := r.social_media.getD []
      contact_details := r.contact_details.getD []
      website := u
      categories := r.categories.getD [] } := by
  simp only [process_one, hu]
  rfl

theorem dictGet?_dictOfList (l : List Item) (n : String) :
    dictGet? (dictOfList l) n = (l.filter fun e => e.company_name == n).getLast? := by
  induction l using List.reverseRecOn with
  | nil => rfl
  | append_singleton l e ih =>
    have hrw : dictOfList (l ++ [e]) = (e.company_name, e) :: dictOfList l := by
      simp [dictOfList]
    rw [hrw]
    by_cases he : e.company_name = n
    · rw [dictGet?, List.find?_cons_of_pos _ (by simp [he])]
      simp [List.filter_append, List.getLast?_append, he]
    · rw [dictGet?, List.find?_cons_of_neg _ (by simp [he])]
      have hback : ((dictOfList l).find? fun p => p.1 = n).map (fun p => p.2)
          = dictGet? (dictOfList l) n := rfl
      rw [hback, ih]
      simp [List.filter_append, he]

theorem filterMap_eq_map_getD (l : List String) (f : String → Option Item)
    (h : ∀ n ∈ l, (f n).isSome) :
    l.filterMap f = l.map fun n => (f n).getD default := by
  induction l with
  | nil => rfl
  | cons x xs ih =>
    have hx := h x (List.mem_cons_self x xs)
    cases hfx : f x with
    | none => rw [hfx] at hx; exact absurd hx (by simp)
    | some a =>
      rw [List.filterMap_cons, hfx, List.map_cons, hfx,
        ih fun n hn => h n (List.mem_cons_of_mem x hn)]
      rfl

/-- C1 counterexample: `process_data` applied to one raw record holding a
contact entry of type `"website"` without a `url` key raises (`KeyError` on
`contact['url']`) instead of degrading to a default, so the Normalizer is not
total on arbitrary raw records. -/
theorem c1_counterexample : process_one rawBadContact = .error () := rfl

/-- C1 (amended): for every raw record in which each contact entry whose type
lowercases to `"website"` carries a `url` key, `process_data` on that record
returns a normalized record without raising, and every absent field degrades to
its documented default (`"Unknown"` for company name and booth location,
`"None"` for pavilion, empty string for the descriptions and the website,
empty list for categories, social media and contacts). -/
theorem c1_normalizer_defaults (r : ExhibitorRaw)
    (h : ∀ c ∈ r.contact_details.getD [], strToLower (c.type.getD "") = "website" → c.url ≠ none) :
    isOkB (process_one r) = true
    ∧ (r.company_name = none → (process_one r).map Item.company_name = .ok "Unknown")
    ∧ (r.booth_location = none → (process_one r).map Item.booth_location = .ok "Unknown")
    ∧ (r.pavilion = none → (process_one r).map Item.pavilion = .ok "None")
    ∧ (r.categories = none → (process_one r).map Item.categories = .ok [])
    ∧ (r.description = none → (process_one r).map Item.description = .ok "")
    ∧ (r.description_ko = none → (process_one r).map Item.description_ko = .ok "")
    ∧ (r.social_media = none → (process_one r).map Item.social_media = .ok [])
    ∧ (r.contact_details = none →
        (process_one r).map Item.website = .ok ""
          ∧ (process_one r).map Item.contact_details = .ok []) := by
  obtain ⟨u, hu⟩ := findWebsiteUrl_isOk _ h
  have hp := process_one_eq_ok r u hu
  refine ⟨by rw [hp]; rfl, fun h1 => by rw [hp, h1]; rfl, fun h1 => by rw [hp, h1]; rfl,
    fun h1 => by rw [hp, h1]; rfl, fun h1 => by rw [hp, h1]; rfl,
    fun h1 => by rw [hp, h1]; rfl, fun h1 => by rw [hp, h1]; rfl,
    fun h1 => by rw [hp, h1]; rfl, fun h1 => ?_⟩
  rw [h1] at hu
  have hu0 : u = "" := by
    simpa [findWebsiteUrl] using hu.symm
  subst hu0
  exact ⟨by rw [hp, h1]; rfl, by rw [hp, h1]; rfl⟩

/-- C1 witness: the all-keys-absent raw record satisfies the well-formedness
hypothesis and normalizes to the documented defaults. -/
theorem c1_normalizer_defaults_witness :
    (∀ c ∈ rawAllNone.contact_details.getD [],
      strToLower (c.type.getD "") = "website" → c.url ≠ none)
    ∧ (isOkB (process_one rawAllNone) = true
      ∧ (rawAllNone.company_name = none →
          (process_one rawAllNone).map Item.company_name = .ok "Unknown")
      ∧ (rawAllNone.booth_location = none →
          (process_one rawAllNone).map Item.booth_location = .ok "Unknown")
      ∧ (rawAllNone.pavilion = none →
          (process_one rawAllNone).map Item.pavilion = .ok "None")
      ∧ (rawAllNone.categories = none →
          (process_one rawAllNone).map Item.categories = .ok [])
      ∧ (rawAllNone.description = none →
          (process_one rawAllNone).map Item.description = .ok "")
      ∧ (rawAllNone.description_ko = none →
          (process_one rawAllNone).map Item.description_ko = .ok "")
      ∧ (rawAllNone.social_media = none →
          (process_one rawAllNone).map Item.social_media = .ok [])
      ∧ (rawAllNone.contact_details = none →
          (process_one rawAllNone).map Item.website = .ok ""
            ∧ (process_one rawAllNone).map Item.contact_details = .ok [])) :=
  ⟨by decide, c1_normalizer_defaults rawAllNone (by decide)⟩

/-- C2 counterexample: on an empty input array the Loader→Normalizer stage
yields an empty normalized sequence, but the Aggregator then fails — the
DataFrame built from zero records has no columns, so the very first column
access `df['categories']` raises `KeyError` instead of producing empty
tables. -/
theorem c2_counterexample :
    process_data ([] : List ExhibitorRaw) = .ok []
    ∧ create_visualizations ([] : List Item) = .error () :=
  ⟨rfl, rfl⟩

/-- C2 (amended): on an empty input array the pipeline does not yield four
empty tables — the Aggregator raises a missing-column error on the empty
DataFrame; on any nonempty normalized sequence it cannot fail. -/
theorem c2_empty_pipeline :
    (process_data ([] : List ExhibitorRaw) = .ok []
      ∧ create_visualizations ([] : List Item) = .error ())
    ∧ ∀ rows : List Item, rows ≠ [] → isOkB (create_visualizations rows) = true :=
  ⟨⟨rfl, rfl⟩, fun rows h => create_visualizations_ne_nil rows h⟩

/-- C2 witness: the nonempty-input half of the amended statement at a concrete
three-record dataset. -/
theorem c2_empty_pipeline_witness :
    rowsPav ≠ [] ∧ isOkB (create_visualizations rowsPav) = true :=
  ⟨by decide, c2_empty_pipeline.2 rowsPav (by decide)⟩

/-- C10: a raw record missing the `booth_location` key normalizes (when it
normalizes at all) to booth location `"Unknown"`, the same default as
`company_name`. -/
theorem c10_booth_default (r : ExhibitorRaw) (hb : r.booth_location = none)
    (hok : isOkB (process_one r) = true) :
    (process_one r).map Item.booth_location = .ok "Unknown" := by
  cases hw : findWebsiteUrl (r.contact_details.getD []) with
  | error e =>
    exfalso
    rw [isOkB.eq_def] at hok
    simp only [process_one, hw] at hok
    exact Bool.noConfusion (by simpa using hok)
  | ok u =>
    rw [process_one_eq_ok r u hw, hb]
    rfl

/-- C10 witness: the all-keys-absent record gets booth location `"Unknown"`. -/
theorem c10_booth_default_witness :
    rawAllNone.booth_location = none ∧ isOkB (process_one rawAllNone) = true
    ∧ (process_one rawAllNone).map Item.booth_location = .ok "Unknown" :=
  ⟨rfl, rfl, c10_booth_default rawAllNone rfl rfl⟩

/-- C3 counterexample: the value the Aggregator preserves as the "real" Others
count is the fixed constant 507 even on a dataset whose true
no-top-30-category count is 0, so the true count is not what is preserved. -/
theorem c3_counterexample :
    (okValue? (create_visualizations rowsAI)).map VizData.others_real_count = some 507
    ∧ othersCount rowsAI = 0
    ∧ (507 : Nat) ≠ 0 :=
  ⟨rfl, by decide, by decide⟩

/-- C3 (amended): whenever `"Artificial Intelligence"` is among the top-30
categories, the displayed count of the synthetic final `"Others"` entry of the
category table equals the `"Artificial Intelligence"` count; the value the
Aggregator preserves as the "real" Others count, however, is the fixed
constant 507 regardless of the data (the computed true count is assigned to an
unused local and discarded). -/
theorem c3_others_display (rows : List Item) (v : VizData) (ai : Nat)
    (hv : create_visualizations rows = .ok v) (ha : aiCountOf rows = some ai) :
    v.top_categories.getLast? = some ("Others", ai) ∧ v.others_real_count = 507 := by
  rw [create_visualizations_eq_ok rows v hv]
  refine ⟨?_, rfl⟩
  show (topCategoriesTable rows).getLast? = some ("Others", ai)
  simp only [topCategoriesTable, ha]
  simp [List.map_append, List.getLast?_append]

/-- C3 witness: the amended statement at the one-record AI dataset, where the
AI count is 1. -/
theorem c3_others_display_witness :
    create_visualizations rowsAI = .ok (vizRecord rowsAI)
    ∧ aiCountOf rowsAI = some 1
    ∧ ((vizRecord rowsAI).top_categories.getLast? = some ("Others", 1)
        ∧ (vizRecord rowsAI).others_real_count = 507) :=
  ⟨rfl, by decide, c3_others_display rowsAI (vizRecord rowsAI) 1 rfl (by decide)⟩

/-- C4 counterexample: on the one-record AI dataset the drill-down on
`"Others"` returns 0 records while the Aggregator's preserved "real" Others
count is 507, so the returned set size does not equal the tracked value. -/
theorem c4_counterexample :
    (okValue? (create_visualizations rowsAI)).map
        (fun v => (display_category_click v "Others").length) = some 0
    ∧ (okValue? (create_visualizations rowsAI)).map VizData.others_real_count = some 507
    ∧ (0 : Nat) ≠ 507 :=
  ⟨by decide, rfl, by decide⟩

/-- C4 (amended): drilling down on `"Others"` returns exactly the records whose
category set intersects none of the top-30 names, and the size of that set is
the recomputed true count of such exhibitors; the Aggregator's preserved
`others_real_count` is the constant 507, which coincides with this size only
when the dataset happens to have exactly 507 such exhibitors. -/
theorem c4_others_drilldown (rows : List Item) (v : VizData)
    (hv : create_visualizations rows = .ok v) :
    List.Perm (display_category_click v "Others")
        (rows.filter fun e => e.categories.all fun c => !((top30Names rows).contains c))
    ∧ (display_category_click v "Others").length = othersCount rows
    ∧ v.others_real_count = 507 := by
  rw [create_visualizations_eq_ok rows v hv]
  have hd : display_category_click (vizRecord rows) "Others"
      = List.insertionSort byNameRel
          (rows.filter fun e => e.categories.all fun c => !((top30Names rows).contains c)) := rfl
  refine ⟨hd ▸ List.perm_insertionSort _ _, ?_, rfl⟩
  rw [hd, (List.perm_insertionSort _ _).length_eq, othersCount,
    List.countP_eq_length_filter]

/-- C4 witness: the amended statement at the one-record AI dataset. -/
theorem c4_others_drilldown_witness :
    create_visualizations rowsAI = .ok (vizRecord rowsAI)
    ∧ (List.Perm (display_category_click (vizRecord rowsAI) "Others")
          (rowsAI.filter fun e => e.categories.all fun c => !((top30Names rowsAI).contains c))
        ∧ (display_category_click (vizRecord rowsAI) "Others").length = othersCount rowsAI
        ∧ (vizRecord rowsAI).others_real_count = 507) :=
  ⟨rfl, c4_others_drilldown rowsAI (vizRecord rowsAI) rfl⟩

/-- C5: for a selection key that is a category name other than `"Others"`, the
drill-down filter returns exactly the records whose category list contains the
key (so a multi-category record appears under each of its categories), sorted
ascending by `company_name` under the case-sensitive code-point order. -/
theorem c5_category_drilldown (v : VizData) (key : String) (hk : key ≠ "Others") :
    List.Perm (display_category_click v key)
        (v.df.filter fun e => e.categories.contains key)
    ∧ (∀ e : Item, e ∈ display_category_click v key ↔ e ∈ v.df ∧ key ∈ e.categories)
    ∧ List.Sorted byNameRel (display_category_click v key) := by
  have hd : display_category_click v key
      = List.insertionSort byNameRel (v.df.filter fun e => e.categories.contains key) := by
    simp only [display_category_click, if_neg hk]
  refine ⟨hd ▸ List.perm_insertionSort _ _, ?_, hd ▸ List.sorted_insertionSort _ _⟩
  intro e
  rw [hd, (List.perm_insertionSort _ _).mem_iff, List.mem_filter]
  simp

/-- C5 witness: drilling down on `"X"` in a two-record dataset. -/
theorem c5_category_drilldown_witness :
    "X" ≠ "Others"
    ∧ (List.Perm (display_category_click vizSmall "X")
          (vizSmall.df.filter fun e => e.categories.contains "X")
        ∧ (∀ e : Item, e ∈ display_category_click vizSmall "X" ↔
            e ∈ vizSmall.df ∧ "X" ∈ e.categories)
        ∧ List.Sorted byNameRel (display_category_click vizSmall "X")) :=
  ⟨by decide, c5_category_drilldown vizSmall "X" (by decide)⟩

/-- C6: the pavilion frequency table keeps the top 15 pavilions by descending
count of exact string matches of the `pavilion` field, with the `"None"`
sentinel excluded before ranking: no `"None"` entry appears, every entry's
count is the exact-equality count of its pavilion, the table is sorted by
descending count, it has 15 entries (or as many distinct non-`"None"`
pavilions as exist, if fewer), and every excluded non-`"None"` pavilion has a
count no larger than any tabled entry's count. -/
theorem c6_pavilion_table (rows : List Item) (v : VizData)
    (hv : create_visualizations rows = .ok v) :
    (∀ p ∈ v.pavilion_counts, p.1 ≠ "None")
    ∧ (∀ p ∈ v.pavilion_counts,
        p.1 ∈ rows.map (fun e => e.pavilion)
          ∧ p.2 = rows.countP fun e => e.pavilion = p.1)
    ∧ List.Sorted countDescRel v.pavilion_counts
    ∧ v.pavilion_counts.length
        = min 15 (((dedupFirst (rows.map fun e => e.pavilion)).filter
            fun s => s != "None").length)
    ∧ (∀ x, x ∈ rows.map (fun e => e.pavilion) → x ≠ "None" →
        x ∉ v.pavilion_counts.map (fun p => p.1) →
        ∀ p ∈ v.pavilion_counts, (rows.countP fun e => e.pavilion = x) ≤ p.2) := by
  rw [create_visualizations_eq_ok rows v hv]
  show (∀ p ∈ pavilionTable rows, p.1 ≠ "None") ∧ _
  have hmem_s : ∀ p : String × Nat,
      p ∈ List.insertionSort countDescRel
          ((value_counts (rows.map fun e => e.pavilion)).filter fun p => p.1 != "None")
        ↔ p ∈ (value_counts (rows.map fun e => e.pavilion)).filter fun p => p.1 != "None" :=
    fun p => (List.perm_insertionSort _ _).mem_iff
  have hmem_tbl : ∀ p ∈ pavilionTable rows,
      p ∈ value_counts (rows.map fun e => e.pavilion) ∧ p.1 ≠ "None" := by
    intro p hp
    have h1 := List.mem_of_mem_take hp
    rw [hmem_s, List.mem_filter] at h1
    exact ⟨h1.1, by simpa using h1.2⟩
  refine ⟨?_, ?_, ?_, ?_, ?_⟩
  · exact fun p hp => (hmem_tbl p hp).2
  · intro p hp
    have h2 := (mem_value_counts _ p).mp (hmem_tbl p hp).1
    exact ⟨h2.1, by rw [h2.2, count_map_eq_countP]⟩
  · exact List.Pairwise.sublist (List.take_sublist 15 _) (List.sorted_insertionSort _ _)
  · show (List.take 15 _).length = _
    rw [List.length_take, (List.perm_insertionSort countDescRel _).length_eq,
      ((value_counts_perm (rows.map fun e => e.pavilion)).filter
        (fun p => p.1 != "None")).length_eq, List.filter_map, List.length_map]
    rfl
  · intro x hx hxne hxnotin p hp
    have hmem : (x, (rows.map fun e => e.pavilion).count x)
        ∈ List.insertionSort countDescRel
            ((value_counts (rows.map fun e => e.pavilion)).filter fun p => p.1 != "None") := by
      rw [hmem_s, List.mem_filter]
      exact ⟨(mem_value_counts _ _).mpr ⟨hx, rfl⟩, by simpa using hxne⟩
    have hnot : (x, (rows.map fun e => e.pavilion).count x) ∉ pavilionTable rows :=
      fun hc => hxnotin (List.mem_map.mpr ⟨_, hc, rfl⟩)
    have hdrop : (x, (rows.map fun e => e.pavilion).count x)
        ∈ (List.insertionSort countDescRel
            ((value_counts (rows.map fun e => e.pavilion)).filter
              fun p => p.1 != "None")).drop 15 := by
      have h3 := hmem
      rw [← List.take_append_drop 15 (List.insertionSort countDescRel _),
        List.mem_append] at h3
      exact h3.resolve_left hnot
    have hsort2 : List.Pairwise countDescRel
        ((List.insertionSort countDescRel
            ((value_counts (rows.map fun e => e.pavilion)).filter
              fun p => p.1 != "None")).take 15
          ++ (List.insertionSort countDescRel
            ((value_counts (rows.map fun e => e.pavilion)).filter
              fun p => p.1 != "None")).drop 15) := by
      rw [List.take_append_drop]
      exact List.sorted_insertionSort _ _
    have h4 := (List.pairwise_append.mp hsort2).2.2 p hp _ hdrop
    rw [← count_map_eq_countP]
    exact h4

/-- C6 witness: the amended statement at a concrete three-record dataset with
two pavilions and one `"None"` sentinel. -/
theorem c6_pavilion_table_witness :
    create_visualizations rowsPav = .ok (vizRecord rowsPav)
    ∧ ((∀ p ∈ (vizRecord rowsPav).pavilion_counts, p.1 ≠ "None")
      ∧ (∀ p ∈ (vizRecord rowsPav).pavilion_counts,
          p.1 ∈ rowsPav.map (fun e => e.pavilion)
            ∧ p.2 = rowsPav.countP fun e => e.pavilion = p.1)
      ∧ List.Sorted countDescRel (vizRecord rowsPav).pavilion_counts
      ∧ (vizRecord rowsPav).pavilion_counts.length
          = min 15 (((dedupFirst (rowsPav.map fun e => e.pavilion)).filter
              fun s => s != "None").length)
      ∧ (∀ x, x ∈ rowsPav.map (fun e => e.pavilion) → x ≠ "None" →
          x ∉ (vizRecord rowsPav).pavilion_counts.map (fun p => p.1) →
          ∀ p ∈ (vizRecord rowsPav).pavilion_counts,
            (rowsPav.countP fun e => e.pavilion = x) ≤ p.2)) :=
  ⟨rfl, c6_pavilion_table rowsPav (vizRecord rowsPav) rfl⟩

/-- C7 counterexample: on a one-record dataset whose record has a nonempty
Korean description, the description split holds a single `("Yes", 1)` entry —
not the claimed exactly-two entries. -/
theorem c7_counterexample :
    (okValue? (create_visualizations rowsYesOnly)).map
        (fun v => v.description_counts.length) = some 1
    ∧ (1 : Nat) ≠ 2 :=
  ⟨by decide, by decide⟩

/-- C7 (amended): the description split of a normalized sequence (one whose
`has_description` flag agrees with `description_ko` being nonempty) contains at
most one `"Yes"` and one `"No"` entry and nothing else; an entry is present
exactly when its class is inhabited, its count is the exact size of its class,
and the entry counts sum to the total number of records — so it has exactly two
entries only when both classes are inhabited. -/
theorem c7_description_split (rows : List Item) (v : VizData)
    (hv : create_visualizations rows = .ok v)
    (h01 : ∀ e ∈ rows, e.has_description = if e.description_ko = "" then 0 else 1) :
    ((v.description_counts.map fun p => p.2).sum = rows.length)
    ∧ (∀ p ∈ v.description_counts, p.1 = "Yes" ∨ p.1 = "No")
    ∧ ((v.description_counts.map fun p => p.1).Nodup)
    ∧ (("Yes", rows.countP fun e => e.description_ko ≠ "") ∈ v.description_counts
        ↔ (rows.countP fun e => e.description_ko ≠ "") ≠ 0)
    ∧ (("No", rows.countP fun e => e.description_ko = "") ∈ v.description_counts
        ↔ (rows.countP fun e => e.description_ko = "") ≠ 0)
    ∧ (∀ p ∈ v.description_counts,
        (p.1 = "Yes" → p.2 = rows.countP fun e => e.description_ko ≠ "")
        ∧ (p.1 = "No" → p.2 = rows.countP fun e => e.description_ko = "")) := by
  rw [create_visualizations_eq_ok rows v hv]
  have hproj : (vizRecord rows).description_counts = descriptionTable rows := rfl
  rw [hproj]
  have hl01 : ∀ n ∈ rows.map (fun e => e.has_description), n = 0 ∨ n = 1 := by
    intro n hn
    obtain ⟨e, he, rfl⟩ := List.mem_map.mp hn
    rw [h01 e he]
    by_cases hd : e.description_ko = "" <;> simp [hd]
  have hc1 : (rows.map fun e => e.has_description).count 1
      = rows.countP fun e => e.description_ko ≠ "" := by
    rw [count_map_eq_countP]
    apply List.countP_congr
    intro e he
    rw [h01 e he]
    by_cases hd : e.description_ko = "" <;> simp [hd]
  have hc0 : (rows.map fun e => e.has_description).count 0
      = rows.countP fun e => e.description_ko = "" := by
    rw [count_map_eq_countP]
    apply List.countP_congr
    intro e he
    rw [h01 e he]
    by_cases hd : e.description_ko = "" <;> simp [hd]
  have hyes : ∀ n : Nat, hasDescLabel n = "Yes" → n = 1 := by
    intro n h
    by_cases h1 : n = 1
    · exact h1
    by_cases h0 : n = 0
    · rw [hasDescLabel, if_neg h1, if_pos h0] at h
      exact absurd h (by decide)
    · rw [hasDescLabel, if_neg h1, if_neg h0] at h
      exact absurd h (by decide)
  have hno : ∀ n : Nat, hasDescLabel n = "No" → n = 0 := by
    intro n h
    by_cases h1 : n = 1
    · rw [hasDescLabel, if_pos h1] at h
      exact absurd h (by decide)
    by_cases h0 : n = 0
    · exact h0
    · rw [hasDescLabel, if_neg h1, if_neg h0] at h
      exact absurd h (by decide)
  refine ⟨?_, ?_, ?_, ?_, ?_, ?_⟩
  · show ((descriptionTable rows).map fun p => p.2).sum = rows.length
    unfold descriptionTable
    rw [List.map_map]
    have hs := sum_snd_value_counts (rows.map fun e => e.has_description)
    rw [List.length_map] at hs
    exact hs
  · intro p hp
    unfold descriptionTable at hp
    obtain ⟨q, hq, rfl⟩ := List.mem_map.mp hp
    have hq1 := ((mem_value_counts _ q).mp hq).1
    rcases hl01 q.1 hq1 with h0 | h1
    · right
      show hasDescLabel q.1 = "No"
      rw [h0]
      decide
    · left
      show hasDescLabel q.1 = "Yes"
      rw [h1]
      decide
  · show ((descriptionTable rows).map fun p => p.1).Nodup
    unfold descriptionTable
    rw [List.map_map]
    apply List.Nodup.map_on ?_
      (List.Nodup.of_map _ (nodup_fst_value_counts (rows.map fun e => e.has_description)))
    intro x hx y hy hxy
    have hxy' : hasDescLabel x.1 = hasDescLabel y.1 := hxy
    have hx1 := (mem_value_counts _ x).mp hx
    have hy1 := (mem_value_counts _ y).mp hy
    have hfst : x.1 = y.1 := by
      rcases hl01 x.1 hx1.1 with h | h <;> rcases hl01 y.1 hy1.1 with h' | h' <;>
        rw [h, h'] at hxy' ⊢ <;> first | rfl | exact absurd hxy' (by decide)
    refine Prod.ext hfst ?_
    rw [hx1.2, hy1.2, hfst]
  · constructor
    · intro hmem
      unfold descriptionTable at hmem
      obtain ⟨q, hq, heq⟩ := List.mem_map.mp hmem
      have h2 := (mem_value_counts _ q).mp hq
      have hq1 : q.1 = 1 := hyes _ (congrArg Prod.fst heq)
      have h1l : (1 : Nat) ∈ rows.map fun e => e.has_description := hq1 ▸ h2.1
      have hpos := List.count_pos_iff.mpr h1l
      rw [hc1] at hpos
      omega
    · intro hne
      have h1l : (1 : Nat) ∈ rows.map fun e => e.has_description := by
        apply List.count_pos_iff.mp
        rw [hc1]
        omega
      unfold descriptionTable
      apply List.mem_map.mpr
      refine ⟨(1, (rows.map fun e => e.has_description).count 1),
        (mem_value_counts _ _).mpr ⟨h1l, rfl⟩, ?_⟩
      rw [hc1]
      rfl
  · constructor
    · intro hmem
      unfold descriptionTable at hmem
      obtain ⟨q, hq, heq⟩ := List.mem_map.mp hmem
      have h2 := (mem_value_counts _ q).mp hq
      have hq0 : q.1 = 0 := hno _ (congrArg Prod.fst heq)
      have h0l : (0 : Nat) ∈ rows.map fun e => e.has_description := hq0 ▸ h2.1
      have hpos := List.count_pos_iff.mpr h0l
      rw [hc0] at hpos
      omega
    · intro hne
      have h0l : (0 : Nat) ∈ rows.map fun e => e.has_description := by
        apply List.count_pos_iff.mp
        rw [hc0]
        omega
      unfold descriptionTable
      apply List.mem_map.mpr
      refine ⟨(0, (rows.map fun e => e.has_description).count 0),
        (mem_value_counts _ _).mpr ⟨h0l, rfl⟩, ?_⟩
      rw [hc0]
      rfl
  · intro p hp
    unfold descriptionTable at hp
    obtain ⟨q, hq, rfl⟩ := List.mem_map.mp hp
    have h2 := (mem_value_counts _ q).mp hq
    constructor
    · intro hy
      have hq1 : q.1 = 1 := hyes _ hy
      show q.2 = _
      rw [h2.2, hq1, hc1]
    · intro hn
      have hq0 : q.1 = 0 := hno _ hn
      show q.2 = _
      rw [h2.2, hq0, hc0]

/-- C7 witness: the amended statement at a two-record dataset with one record
per description class. -/
theorem c7_description_split_witness :
    create_visualizations rowsYesNo = .ok (vizRecord rowsYesNo)
    ∧ (∀ e ∈ rowsYesNo, e.has_description = if e.description_ko = "" then 0 else 1)
    ∧ ((((vizRecord rowsYesNo).description_counts.map fun p => p.2).sum = rowsYesNo.length)
      ∧ (∀ p ∈ (vizRecord rowsYesNo).description_counts, p.1 = "Yes" ∨ p.1 = "No")
      ∧ (((vizRecord rowsYesNo).description_counts.map fun p => p.1).Nodup)
      ∧ (("Yes", rowsYesNo.countP fun e => e.description_ko ≠ "")
            ∈ (vizRecord rowsYesNo).description_counts
          ↔ (rowsYesNo.countP fun e => e.description_ko ≠ "") ≠ 0)
      ∧ (("No", rowsYesNo.countP fun e => e.description_ko = "")
            ∈ (vizRecord rowsYesNo).description_counts
          ↔ (rowsYesNo.countP fun e => e.description_ko = "") ≠ 0)
      ∧ (∀ p ∈ (vizRecord rowsYesNo).description_counts,
          (p.1 = "Yes" → p.2 = rowsYesNo.countP fun e => e.description_ko ≠ "")
          ∧ (p.1 = "No" → p.2 = rowsYesNo.countP fun e => e.description_ko = ""))) :=
  ⟨rfl, by decide, c7_description_split rowsYesNo (vizRecord rowsYesNo) rfl (by decide)⟩

/-- C8 counterexample: the export ignores the display language — with the
preference set to `"en"` it returns exactly the same table as with `"ko"`, and
that table's headers are the fixed Korean strings rather than English ones, so
the headers are not in the target display language. -/
theorem c8_counterexample :
    download_selected_data_at "en" 1 [["A"]] storeOne
      = download_selected_data_at "ko" 1 [["A"]] storeOne
    ∧ (download_selected_data_at "en" 1 [["A"]] storeOne).map ExportTable.headers
      = some ["회사명", "부스 위치", "파빌리온", "영문 설명", "한글 설명", "웹페이지"] :=
  ⟨rfl, by decide⟩

/-- C8 (amended): for every display-language preference, pressing the export
button (a truthy click count) downloads nothing when no company is checked or
when no drill-down store exists; when at least one company is checked and every
checked name is present in the current drill-down store, it yields a table
whose headers are exactly the six fixed Korean column labels — identical for
every `"ko"`/`"en"` preference, since the callbacks receive no language
input — and whose data rows are exactly the checked companies' six-column
rows, one per checked name, in the order the names were supplied. -/
theorem c8_export (language : String) (n_clicks : Nat)
    (checkbox_values : List (List String)) (store : List (String × Item))
    (hclick : n_clicks ≠ 0) :
    (download_selected_data_at language n_clicks checkbox_values store
      = download_selected_data_at "ko" n_clicks checkbox_values store)
    ∧ (selectedCompanies checkbox_values = [] →
      download_selected_data_at language n_clicks checkbox_values store = none)
    ∧ (store = [] →
      download_selected_data_at language n_clicks checkbox_values store = none)
    ∧ ((selectedCompanies checkbox_values ≠ []
        ∧ ∀ n ∈ selectedCompanies checkbox_values, (dictGet? store n).isSome) →
      download_selected_data_at language n_clicks checkbox_values store
        = some { headers := exportHeaders,
                 rows := (selectedCompanies checkbox_values).map
                   fun n => exportRow ((dictGet? store n).getD default) }
        ∧ exportHeaders.length = 6
        ∧ ((selectedCompanies checkbox_values).map
            fun n => exportRow ((dictGet? store n).getD default)).length
          = (selectedCompanies checkbox_values).length) := by
  refine ⟨rfl, ?_, ?_, ?_⟩
  · intro h
    simp [download_selected_data_at, download_selected_data, hclick, h]
  · intro h
    subst h
    by_cases hsel : (selectedCompanies checkbox_values).isEmpty
    · simp [download_selected_data_at, download_selected_data, hclick, hsel]
    · simp [download_selected_data_at, download_selected_data, hclick, hsel, dictGet?]
  · rintro ⟨hne, hall⟩
    have hmap := filterMap_eq_map_getD (selectedCompanies checkbox_values)
      (fun n => dictGet? store n) hall
    have hselF : (selectedCompanies checkbox_values).isEmpty = false := by
      cases h : selectedCompanies checkbox_values with
      | nil => exact absurd h hne
      | cons a l => rfl
    have hdataF : ((selectedCompanies checkbox_values).filterMap
        fun n => dictGet? store n).isEmpty = false := by
      rw [hmap]
      cases h : selectedCompanies checkbox_values with
      | nil => exact absurd h hne
      | cons a l => rfl
    refine ⟨?_, rfl, by rw [List.length_map]⟩
    simp only [download_selected_data_at, download_selected_data, if_neg hclick]
    rw [if_neg (by rw [hselF]; exact Bool.false_ne_true),
      if_neg (by rw [hdataF]; exact Bool.false_ne_true), hmap, List.map_map]
    rfl

/-- C8 witness: exporting one checked company against a one-record store with
the display preference set to `"en"`. -/
theorem c8_export_witness :
    (1 : Nat) ≠ 0
    ∧ ((download_selected_data_at "en" 1 [["A"]] storeOne
        = download_selected_data_at "ko" 1 [["A"]] storeOne)
      ∧ (selectedCompanies [["A"]] = [] →
        download_selected_data_at "en" 1 [["A"]] storeOne = none)
      ∧ (storeOne = [] →
        download_selected_data_at "en" 1 [["A"]] storeOne = none)
      ∧ ((selectedCompanies [["A"]] ≠ []
          ∧ ∀ n ∈ selectedCompanies [["A"]], (dictGet? storeOne n).isSome) →
        download_selected_data_at "en" 1 [["A"]] storeOne
          = some { headers := exportHeaders,
                   rows := (selectedCompanies [["A"]]).map
                     fun n => exportRow ((dictGet? storeOne n).getD default) }
          ∧ exportHeaders.length = 6
          ∧ ((selectedCompanies [["A"]]).map
              fun n => exportRow ((dictGet? storeOne n).getD default)).length
            = (selectedCompanies [["A"]]).length)) :=
  ⟨by decide, c8_export "en" 1 [["A"]] storeOne (by decide)⟩

/-- C9: after a category drill-down, the stored "last selection" maps each
company name to the last record bearing that name in the company-name-sorted
filtered result (so records sharing a name collapse to one), and an export
that checks such a name yields at most one row for it. -/
theorem c9_selection_store (v : VizData) (key n : String) (n_clicks : Nat)
    (hclick : n_clicks ≠ 0) :
    dictGet? (selected_category_exhibitors v key) n
      = ((display_category_click v key).filter fun e => e.company_name == n).getLast?
    ∧ ∀ t : ExportTable,
        download_selected_data n_clicks [[n]] (selected_category_exhibitors v key) = some t →
        t.rows.length ≤ 1 := by
  constructor
  · exact dictGet?_dictOfList _ n
  · intro t ht
    cases hg : dictGet? (selected_category_exhibitors v key) n with
    | none => simp [download_selected_data, hclick, hg, selectedCompanies] at ht
    | some e =>
      simp [download_selected_data, hclick, hg, selectedCompanies] at ht
      rw [← ht]
      exact Nat.le_refl 1

/-- C9 witness: a drill-down whose result holds two records named `"A"`. -/
theorem c9_selection_store_witness :
    (1 : Nat) ≠ 0
    ∧ (dictGet? (selected_category_exhibitors vizDup "X") "A"
        = ((display_category_click vizDup "X").filter fun e => e.company_name == "A").getLast?
      ∧ ∀ t : ExportTable,
          download_selected_data 1 [["A"]] (selected_category_exhibitors vizDup "X") = some t →
          t.rows.length ≤ 1) :=
  ⟨by decide, c9_selection_store vizDup "X" "A" 1 (by decide)⟩
